import Mathlib

/-
Verification of the sort-order and range-selection engine of
src/app/js/LockTab.tsx (Tab Wrangler).

The embedding is shallow: each comparator, the sorter registry, the sort
selection state machine and the range toggle engine are translated into pure
Lean functions.  Browser tab records are modelled by the fields this file
reads (`id`, `index`, `windowId`); the externally supplied predicates
`settings.isTabLocked` and `settings.isTabManuallyLockable` become function
parameters; the `tabTimes` side table becomes a total map from tab id to an
integer timestamp (the application keeps an entry for every open tab id, so
a "missing timestamp" only arises from a null tab id, exactly the case the
code maps to -1).  JavaScript numbers on these code paths are integer valued,
so they are modelled by `Int`.
-/

namespace LockTab

/-- Model of a `chrome.tabs.Tab` restricted to the fields LockTab.tsx reads:
`id` (nullable), `index` (position within its window) and `windowId`. -/
structure Tab where
  id : Option Nat
  index : Int
  windowId : Int
deriving DecidableEq, Repr

/-- Timestamp lookup used by the Chrono comparator, from LockTab.tsx lines
35-36: `tab.id == null ? -1 : tabTimes[tab.id]`. -/
def lastModified (tabTimes : Nat → Int) (tab : Tab) : Int :=
  match tab.id with
  | none => -1
  | some i => tabTimes i

/-- Comparison function of `ChronoSorter` (LockTab.tsx lines 27-39),
parameterised by the external predicate `settings.isTabLocked`. -/
def chronoSort (locked : Tab → Bool) (tabA tabB : Option Tab)
    (tabTimes : Nat → Int) : Int :=
  match tabA, tabB with
  | none, _ => 0
  | _, none => 0
  | some a, some b =>
    if locked a && !locked b then 1
    else if !locked a && locked b then -1
    else lastModified tabTimes a - lastModified tabTimes b

/-- Comparison function of `ReverseChronoSorter` (LockTab.tsx lines 46-48). -/
def reverseChronoSort (locked : Tab → Bool) (tabA tabB : Option Tab)
    (tabTimes : Nat → Int) : Int :=
  -1 * chronoSort locked tabA tabB tabTimes

/-- Comparison function of `TabOrderSorter` (LockTab.tsx lines 55-63). -/
def tabOrderSort (tabA tabB : Option Tab) : Int :=
  match tabA, tabB with
  | none, _ => 0
  | _, none => 0
  | some a, some b =>
    if a.windowId = b.windowId then a.index - b.index
    else a.windowId - b.windowId

/-- Comparison function of `ReverseTabOrderSorter` (LockTab.tsx lines 70-72). -/
def reverseTabOrderSort (tabA tabB : Option Tab) : Int :=
  -1 * tabOrderSort tabA tabB

/-- The closed sorter registry: the four `Sorter` values of LockTab.tsx,
identified by variant.  The registry is fixed, so a closed inductive type is
the faithful model; reference equality between registry members becomes
equality of `SorterId`. -/
inductive SorterId where
  | tabOrder
  | reverseTabOrder
  | chrono
  | reverseChrono
deriving DecidableEq, Repr

/-- The `key` field of each registry sorter. -/
def SorterId.key : SorterId → String
  | .tabOrder => "tabOrder"
  | .reverseTabOrder => "reverseTabOrder"
  | .chrono => "chrono"
  | .reverseChrono => "reverseChrono"

/-- The `sort` field of each registry sorter, dispatching to the comparison
functions above. -/
def SorterId.sortFn (s : SorterId) (locked : Tab → Bool)
    (tabA tabB : Option Tab) (tabTimes : Nat → Int) : Int :=
  match s with
  | .tabOrder => tabOrderSort tabA tabB
  | .reverseTabOrder => reverseTabOrderSort tabA tabB
  | .chrono => chronoSort locked tabA tabB tabTimes
  | .reverseChrono => reverseChronoSort locked tabA tabB tabTimes

/-- `const Sorters = [TabOrderSorter, ReverseTabOrderSorter, ChronoSorter,
ReverseChronoSorter]` (LockTab.tsx line 76). -/
def Sorters : List SorterId :=
  [.tabOrder, .reverseTabOrder, .chrono, .reverseChrono]

/-- `const DEFAULT_SORTER = TabOrderSorter` (LockTab.tsx line 75). -/
def DEFAULT_SORTER : SorterId := .tabOrder

/-- Initialisation of `currSorter` (LockTab.tsx lines 86-92): resolve the
persisted sort key against the registry, falling back to the default sorter
when the key is absent or resolves to nothing. -/
def initCurrSorter (sortOrder : Option String) : SorterId :=
  let sorter : Option SorterId :=
    match sortOrder with
    | none => some DEFAULT_SORTER
    | some key => Sorters.find? (fun s => SorterId.key s == key)
  sorter.getD DEFAULT_SORTER

/-- Sort selection state of the component: the settings-store value of
`lockTabSortOrder` (`persistedKey`), the React mirror `sortOrder`, the active
sorter and the dropdown flag. -/
structure SortState where
  persistedKey : Option String
  sortOrder : Option String
  currSorter : SorterId
  isSortDropdownOpen : Bool
deriving DecidableEq, Repr

/-- `clickSorter` (LockTab.tsx lines 158-178), with the DOM event handling
dropped: if the clicked sorter is already active only the dropdown closes;
otherwise the persisted key is overwritten with the new key when it is
currently non-null, and the active sorter becomes the clicked one. -/
def clickSorter (nextSorter : SorterId) (s : SortState) : SortState :=
  if nextSorter = s.currSorter then
    { s with isSortDropdownOpen := false }
  else
    let s1 :=
      if s.persistedKey ≠ none then
        { s with persistedKey := some (SorterId.key nextSorter) }
      else s
    { s1 with isSortDropdownOpen := false, currSorter := nextSorter }

/-- `handleChangeSaveSortOrder` (LockTab.tsx lines 180-188): checking the box
persists the active sorter key, unchecking persists null; both keep the React
mirror in sync. -/
def handleChangeSaveSortOrder (checked : Bool) (s : SortState) : SortState :=
  if checked then
    { s with persistedKey := some (SorterId.key s.currSorter),
             sortOrder := some (SorterId.key s.currSorter) }
  else
    { s with persistedKey := none, sortOrder := none }

/-- JavaScript `Array.prototype.indexOf`: the first index of `a` in `l`, or
-1 when `a` does not occur.  Strict object equality of tab records is
modelled by structural equality on `Tab`. -/
def jsIndexOf {α : Type} [DecidableEq α] (l : List α) (a : α) : Int :=
  if a ∈ l then (l.indexOf a : Int) else -1

/-- Clamp one `Array.prototype.slice` argument to `[0, len]`, resolving a
negative index relative to the end of the array. -/
def jsSliceBound (len : Nat) (i : Int) : Nat :=
  if i < 0 then ((len : Int) + i).toNat else min i.toNat len

/-- JavaScript `Array.prototype.slice(start, stop)`. -/
def jsSlice {α : Type} (l : List α) (start stop : Int) : List α :=
  (l.take (jsSliceBound l.length stop)).drop (jsSliceBound l.length start)

/-- The set of tabs `handleToggleTab` toggles before lockability filtering
(LockTab.tsx lines 191-201): `[tab]`, except that a range-modified click with
a prior last-selected tab still present in `sortedTabs` selects the slice
between the two indices. -/
def tabsToToggle (sortedTabs : List Tab) (lastSelected : Option Tab)
    (tab : Tab) (multiselect : Bool) : List Tab :=
  if multiselect then
    match lastSelected with
    | none => [tab]
    | some last =>
      let lastSelectedTabIndex := jsIndexOf sortedTabs last
      if lastSelectedTabIndex ≥ 0 then
        let tabIndex := jsIndexOf sortedTabs tab
        jsSlice sortedTabs (min tabIndex lastSelectedTabIndex)
          (max tabIndex lastSelectedTabIndex + 1)
      else [tab]
  else [tab]

/-- A lock mutation issued against the settings store. -/
inductive LockRequest where
  | lock (id : Nat)
  | unlock (id : Nat)
deriving DecidableEq, Repr

/-- The mutation pipeline of `handleToggleTab` (LockTab.tsx lines 203-210):
filter to manually lockable tabs, skip null ids, and lock or unlock each
surviving id according to `selected`. -/
def toggleRequests (lockable : Tab → Bool) (tabs : List Tab)
    (selected : Bool) : List LockRequest :=
  (tabs.filter lockable).filterMap (fun t =>
    match t.id with
    | none => none
    | some i => some (if selected then LockRequest.lock i else LockRequest.unlock i))

/-- `handleToggleTab` (LockTab.tsx lines 190-213) as a pure function: returns
the list of fire-and-forget lock mutations it issues, in order, together with
the new value of `lastSelectedTabRef`. -/
def handleToggleTab (lockable : Tab → Bool) (sortedTabs : List Tab)
    (lastSelected : Option Tab) (tab : Tab) (selected : Bool)
    (multiselect : Bool) : List LockRequest × Option Tab :=
  (toggleRequests lockable (tabsToToggle sortedTabs lastSelected tab multiselect) selected,
   some tab)

/-- The tab list projection `sortedTabs` (LockTab.tsx lines 95-99): an empty
list while the tab query is pending, otherwise a stable sort of a copy of the
raw tab list under the active sorter.  JavaScript's stable `Array.sort` with
comparator `cmp` is modelled by `List.mergeSort` with the order
`fun a b => cmp a b ≤ 0`. -/
def sortedTabsProj (locked : Tab → Bool) (tabs : Option (List Tab))
    (currSorter : SorterId) (tabTimes : Nat → Int) : List Tab :=
  match tabs with
  | none => []
  | some ts =>
    ts.mergeSort (fun a b =>
      SorterId.sortFn currSorter locked (some a) (some b) tabTimes ≤ 0)

/-- The affected set of the range toggle engine, written from the spec: the
singleton `{target}` unless range mode is on and the prior last-selected tab
is still found in the ordered list, in which case it is the contiguous slice
of the ordered list between the two indices, inclusive. -/
def specAffectedSet (orderedTabs : List Tab) (lastSelected : Option Tab)
    (target : Tab) (rangeMode : Bool) : List Tab :=
  match rangeMode, lastSelected with
  | false, _ => [target]
  | true, none => [target]
  | true, some last =>
    if last ∈ orderedTabs then
      let i := orderedTabs.indexOf last
      let j := orderedTabs.indexOf target
      (orderedTabs.drop (min i j)).take (max i j + 1 - min i j)
    else [target]

theorem jsIndexOf_of_mem {α : Type} [DecidableEq α] {l : List α} {a : α}
    (h : a ∈ l) : jsIndexOf l a = (l.indexOf a : Int) := by
  simp [jsIndexOf, h]

theorem jsIndexOf_of_not_mem {α : Type} [DecidableEq α] {l : List α} {a : α}
    (h : a ∉ l) : jsIndexOf l a = -1 := by
  simp [jsIndexOf, h]

theorem jsSlice_natCast {α : Type} (l : List α) (s e : Nat)
    (hs : s ≤ l.length) (he : e ≤ l.length) :
    jsSlice l (s : Int) (e : Int) = (l.drop s).take (e - s) := by
  have h1 : jsSliceBound l.length (s : Int) = s := by
    simp [jsSliceBound, hs]
  have h2 : jsSliceBound l.length (e : Int) = e := by
    simp [jsSliceBound, he]
  rw [jsSlice, h1, h2, List.drop_take]

/-- Bridge between the code's index-and-slice computation and the spec's
affected set, on the precondition that the clicked target belongs to the
ordered list (it is always a rendered row of it). -/
theorem tabsToToggle_eq_specAffectedSet (sortedTabs : List Tab)
    (lastSelected : Option Tab) (tab : Tab) (multiselect : Bool)
    (h : tab ∈ sortedTabs) :
    tabsToToggle sortedTabs lastSelected tab multiselect
      = specAffectedSet sortedTabs lastSelected tab multiselect := by
  cases multiselect with
  | false => rfl
  | true =>
    cases lastSelected with
    | none => rfl
    | some last =>
      by_cases hlast : last ∈ sortedTabs
      · have hi : sortedTabs.indexOf last < sortedTabs.length :=
          List.indexOf_lt_length.mpr hlast
        have hj : sortedTabs.indexOf tab < sortedTabs.length :=
          List.indexOf_lt_length.mpr h
        simp only [tabsToToggle, specAffectedSet, jsIndexOf_of_mem hlast,
          jsIndexOf_of_mem h, hlast, ge_iff_le, Int.natCast_nonneg, if_true]
        have hmin : ((sortedTabs.indexOf tab : Int)) ⊓ (sortedTabs.indexOf last : Int)
            = ((sortedTabs.indexOf tab ⊓ sortedTabs.indexOf last : Nat) : Int) := by
          omega
        have hmax : ((sortedTabs.indexOf tab : Int)) ⊔ (sortedTabs.indexOf last : Int) + 1
            = ((sortedTabs.indexOf tab ⊔ sortedTabs.indexOf last + 1 : Nat) : Int) := by
          omega
        rw [hmin, hmax, jsSlice_natCast _ _ _ (by omega) (by omega)]
        congr 1
        · omega
        · congr 1
          omega
      · simp [tabsToToggle, specAffectedSet, jsIndexOf_of_not_mem hlast, hlast]

theorem toggleRequests_eq_filterMap (lockable : Tab → Bool) (selected : Bool)
    (l : List Tab) :
    toggleRequests lockable l selected
      = l.filterMap (fun u =>
          if lockable u then
            Option.map
              (fun i => if selected then LockRequest.lock i else LockRequest.unlock i)
              u.id
          else none) := by
  rw [toggleRequests, List.filterMap_filter]
  congr 1
  funext u
  cases hid : u.id <;> simp [hid]

/-- Sample tabs for concrete witnesses: the scenario of the spec, tabs
T1{window 1, index 0}, T2{window 1, index 1}, T3{window 2, index 0}. -/
def wT1 : Tab := ⟨some 1, 0, 1⟩

def wT2 : Tab := ⟨some 2, 1, 1⟩

def wT3 : Tab := ⟨some 3, 0, 2⟩

/-- Sample sort selection state with persistence disabled. -/
def wState : SortState := ⟨none, none, .tabOrder, false⟩

/-- Claim C1: for every ordered tab list, prior last-selected tab, target,
selected flag and range-modifier flag, `handleToggleTab` issues a lock
request (when `selected`) or an unlock request (otherwise) exactly for the
manually lockable tabs with non-null id of the affected set, which is
`{target}` when range mode is off, there is no prior last-selected tab, or
that tab is no longer in the ordered list, and otherwise the contiguous
slice of the ordered list between the index of the last-selected tab and the
index of the target, inclusive. -/
theorem handleToggleTab_requests_match_affected_set
    (lockable : Tab → Bool) (sortedTabs : List Tab) (lastSelected : Option Tab)
    (tab : Tab) (selected : Bool) (multiselect : Bool) (h : tab ∈ sortedTabs) :
    (handleToggleTab lockable sortedTabs lastSelected tab selected multiselect).1
      = (specAffectedSet sortedTabs lastSelected tab multiselect).filterMap
          (fun u =>
            if lockable u then
              Option.map
                (fun i => if selected then LockRequest.lock i else LockRequest.unlock i)
                u.id
            else none) := by
  show toggleRequests lockable (tabsToToggle sortedTabs lastSelected tab multiselect) selected = _
  rw [tabsToToggle_eq_specAffectedSet _ _ _ _ h, toggleRequests_eq_filterMap]

theorem handleToggleTab_requests_match_affected_set_witness :
    (handleToggleTab (fun _ => true) [wT1, wT2, wT3] (some wT1) wT3 true true).1
      = [LockRequest.lock 1, LockRequest.lock 2, LockRequest.lock 3] := by
  have hspec := handleToggleTab_requests_match_affected_set (fun _ => true)
    [wT1, wT2, wT3] (some wT1) wT3 true true (by decide)
  rw [hspec]
  decide

/-- Claim C2: the Chrono comparator returns 0 when either input is null; a
tab satisfying the external locked-predicate compares greater than every
tab that does not; and on equal locked status it returns the difference of
the last-modified timestamps (missing timestamp, i.e. null id, treated
as -1). -/
theorem chronoSorter_spec :
    ∀ (locked : Tab → Bool) (tabTimes : Nat → Int),
      (∀ b, chronoSort locked none b tabTimes = 0) ∧
      (∀ a, chronoSort locked (some a) none tabTimes = 0) ∧
      (∀ a b, locked a = true → locked b = false →
        0 < chronoSort locked (some a) (some b) tabTimes) ∧
      (∀ a b, locked a = false → locked b = true →
        chronoSort locked (some a) (some b) tabTimes < 0) ∧
      (∀ a b, locked a = locked b →
        chronoSort locked (some a) (some b) tabTimes
          = lastModified tabTimes a - lastModified tabTimes b) := by
  intro locked tabTimes
  refine ⟨fun b => by cases b <;> rfl, fun a => rfl,
    fun a b ha hb => ?_, fun a b ha hb => ?_, fun a b hab => ?_⟩
  · norm_num [chronoSort, ha, hb]
  · norm_num [chronoSort, ha, hb]
  · cases hb : locked b with
    | false => rw [hb] at hab; simp [chronoSort, hab, hb]
    | true => rw [hb] at hab; simp [chronoSort, hab, hb]

theorem chronoSorter_spec_witness :
    chronoSort (fun _ => false) (some wT1) (some wT2) (fun _ => 7)
      = lastModified (fun _ => 7) wT1 - lastModified (fun _ => 7) wT2 :=
  (chronoSorter_spec (fun _ => false) (fun _ => 7)).2.2.2.2 wT1 wT2 rfl

/-- Claim C3: the reverse sorters are the pointwise negation of their
counterparts, on all inputs including null and every tabTimes map. -/
theorem reverse_sorters_negate :
    ∀ (locked : Tab → Bool) (a b : Option Tab) (tabTimes : Nat → Int),
      reverseTabOrderSort a b = - tabOrderSort a b ∧
      reverseChronoSort locked a b tabTimes = - chronoSort locked a b tabTimes := by
  intro locked a b tabTimes
  exact ⟨by rw [reverseTabOrderSort, neg_one_mul],
    by rw [reverseChronoSort, neg_one_mul]⟩

/-- Claim C4: the tab list projection returns an empty sequence when the raw
collection is unavailable or empty, is deterministic (same inputs give the
same tab-id order), and returns a fresh reordering of the raw collection
(a permutation; the input list itself is untouched, the projection being a
pure function of it). -/
theorem sortedTabsProj_spec :
    ∀ (locked : Tab → Bool) (currSorter : SorterId) (tabTimes : Nat → Int),
      sortedTabsProj locked none currSorter tabTimes = [] ∧
      sortedTabsProj locked (some []) currSorter tabTimes = [] ∧
      (∀ tabs, (sortedTabsProj locked tabs currSorter tabTimes).map Tab.id
        = (sortedTabsProj locked tabs currSorter tabTimes).map Tab.id) ∧
      (∀ ts, (sortedTabsProj locked (some ts) currSorter tabTimes).Perm ts) := by
  intro locked currSorter tabTimes
  exact ⟨rfl, by simp [sortedTabsProj], fun _ => rfl,
    fun ts => List.mergeSort_perm ts _⟩

/-- Claim C5: with persistence disabled (persisted key null), choosing a
different sorter activates it and leaves the persisted key null; choosing
the active sorter again changes neither the active sorter nor the key. -/
theorem clickSorter_persistence_disabled (s : SortState) (next : SorterId)
    (h : s.persistedKey = none) :
    (next ≠ s.currSorter →
      (clickSorter next s).currSorter = next ∧
      (clickSorter next s).persistedKey = none) ∧
    (next = s.currSorter →
      (clickSorter next s).currSorter = s.currSorter ∧
      (clickSorter next s).persistedKey = s.persistedKey) := by
  constructor
  · intro hne
    simp [clickSorter, hne, h]
  · intro heq
    simp [clickSorter, heq, h]

theorem clickSorter_persistence_disabled_witness :
    (clickSorter SorterId.chrono wState).currSorter = SorterId.chrono ∧
    (clickSorter SorterId.chrono wState).persistedKey = none :=
  (clickSorter_persistence_disabled wState SorterId.chrono rfl).1 (by decide)

/-- Claim C6: enabling persistence stores the active sorter key, disabling
stores null, and after enabling persistence a subsequent choice of a
different sorter X leaves the persisted key equal to X.key. -/
theorem setPersistence_then_chooseSorter :
    (∀ s : SortState,
      (handleChangeSaveSortOrder true s).persistedKey
        = some (SorterId.key s.currSorter)) ∧
    (∀ s : SortState, (handleChangeSaveSortOrder false s).persistedKey = none) ∧
    (∀ (s : SortState) (X : SorterId), X ≠ s.currSorter →
      (clickSorter X (handleChangeSaveSortOrder true s)).persistedKey
        = some (SorterId.key X)) := by
  refine ⟨fun s => rfl, fun s => rfl, fun s X hX => ?_⟩
  simp [clickSorter, handleChangeSaveSortOrder, hX]

theorem setPersistence_then_chooseSorter_witness :
    (clickSorter SorterId.reverseChrono (handleChangeSaveSortOrder true wState)).persistedKey
      = some (SorterId.key SorterId.reverseChrono) :=
  setPersistence_then_chooseSorter.2.2 wState SorterId.reverseChrono (by decide)

/-- Claim C7: initialisation of the sort selection state is total and yields
exactly one active sorter: an absent key selects TabOrder, a key matching a
registry sorter selects that sorter, and an unresolvable key such as
"bogus" falls back to TabOrder. -/
theorem initCurrSorter_total_and_resolves :
    initCurrSorter none = SorterId.tabOrder ∧
    (∀ s : SorterId, initCurrSorter (some (SorterId.key s)) = s) ∧
    initCurrSorter (some "bogus") = SorterId.tabOrder := by
  refine ⟨rfl, fun s => ?_, by decide⟩
  cases s <;> decide

/-- Claim C8: the TabOrder comparator returns 0 on null inputs, orders by
(windowId, index) lexicographically ascending, and on tabs with pairwise
distinct (windowId, index) pairs its strict relation is transitive,
antisymmetric and total. -/
theorem tabOrder_strict_total_order :
    (∀ b, tabOrderSort none b = 0) ∧
    (∀ a, tabOrderSort a none = 0) ∧
    (∀ a b : Tab, tabOrderSort (some a) (some b) < 0 ↔
      a.windowId < b.windowId ∨ (a.windowId = b.windowId ∧ a.index < b.index)) ∧
    (∀ a b c : Tab, tabOrderSort (some a) (some b) < 0 →
      tabOrderSort (some b) (some c) < 0 → tabOrderSort (some a) (some c) < 0) ∧
    (∀ a b : Tab, tabOrderSort (some a) (some b) < 0 →
      ¬ tabOrderSort (some b) (some a) < 0) ∧
    (∀ a b : Tab, (a.windowId, a.index) ≠ (b.windowId, b.index) →
      tabOrderSort (some a) (some b) < 0 ∨ tabOrderSort (some b) (some a) < 0) := by
  have hlt : ∀ a b : Tab, tabOrderSort (some a) (some b) < 0 ↔
      a.windowId < b.windowId ∨ (a.windowId = b.windowId ∧ a.index < b.index) := by
    intro a b
    show (if a.windowId = b.windowId then a.index - b.index
      else a.windowId - b.windowId) < 0 ↔ _
    split_ifs with hw <;> omega
  refine ⟨fun b => by cases b <;> rfl, fun a => by cases a <;> rfl, hlt,
    fun a b c hab hbc => ?_, fun a b hab => ?_, fun a b hne => ?_⟩
  · rw [hlt] at hab hbc ⊢
    omega
  · rw [hlt] at hab ⊢
    omega
  · rw [hlt, hlt]
    have hne2 : ¬(a.windowId = b.windowId ∧ a.index = b.index) := by
      simpa [Prod.ext_iff] using hne
    omega

theorem tabOrder_strict_total_order_witness :
    tabOrderSort (some wT1) (some wT3) < 0 ∨ tabOrderSort (some wT3) (some wT1) < 0 :=
  tabOrder_strict_total_order.2.2.2.2.2 wT1 wT3 (by decide)

/-- Claim C9: after every invocation of `handleToggleTab` the new
last-selected reference is the clicked target tab, whether or not range
mode was used and whether or not the target survived the lockability and
null-id filters. -/
theorem handleToggleTab_sets_lastSelected :
    ∀ (lockable : Tab → Bool) (sortedTabs : List Tab) (lastSelected : Option Tab)
      (tab : Tab) (selected multiselect : Bool),
      (handleToggleTab lockable sortedTabs lastSelected tab selected multiselect).2
        = some tab :=
  fun _ _ _ _ _ _ => rfl

/-- Sample tabs for the record-identity scenario: the stored last-selected
record, and a current list whose first tab has the same id but is a
different record (its index moved from 0 to 5). -/
def w10last : Tab := ⟨some 1, 0, 1⟩

def w10a : Tab := ⟨some 1, 5, 1⟩

def w10b : Tab := ⟨some 2, 6, 1⟩

def w10c : Tab := ⟨some 3, 7, 1⟩

/-- Claim C10: `handleToggleTab` decides whether the prior last-selected tab
is found in the ordered list by record identity, not by tab id: here the
ordered list contains a tab with the same id as the stored last-selected
record but not that record itself, and a range-modified click on the last
tab toggles only `{target}` instead of a contiguous slice. -/
theorem toggle_found_by_record_identity_not_id :
    w10a.id = w10last.id ∧
    w10last ∉ [w10a, w10b, w10c] ∧
    tabsToToggle [w10a, w10b, w10c] (some w10last) w10c true = [w10c] ∧
    (handleToggleTab (fun _ => true) [w10a, w10b, w10c] (some w10last) w10c true true).1
      = [LockRequest.lock 3] :=
  ⟨rfl, by decide, by decide, by decide⟩

end LockTab
